import Mathlib

/-!
Verification of the T-shape skills visualization repository.

The repository's layout algorithm (`create_t_shape_visualization`, imported by
`src/app.py`) is not present under `src/`; the geometry provider and the label
layout engine are therefore modelled from the specification.  The plotting
helpers of `src/visualizations.py`, the loader of `src/data_loader.py` and the
reactive filter of `src/app.py` are embedded directly from their source.
-/

namespace TShapeViz

/-! ### Geometry provider (modelled from the spec) -/

/-- Modelled from the spec: one point of the T-shape boundary outline.  The
module defining the boundary geometry provider (part of the layout code that
`src/app.py` imports as `create_t_shape_visualization`) is missing from `src/`. -/
structure Point where
  x : ℚ
  y : ℚ
deriving DecidableEq, Repr

/-- Modelled from the spec: the boundary shape is an ordered sequence of 2D
points forming the T outline; it is used only for its axis extent queries. -/
structure BoundaryShape where
  points : List Point
deriving DecidableEq, Repr

/-- Modelled from the spec: configuration error raised when the boundary has no
point at the centerline x. -/
inductive GeometryError where
  | noCenterlinePoint
deriving DecidableEq, Repr

/-- Absolute value on ℚ, written so that it evaluates by kernel reduction. -/
def absQ (q : ℚ) : ℚ := if q < 0 then -q else q

/-- Maximum of a list of rationals (0 for the empty list; only ever applied to
nonempty lists in the development). -/
def maxQ : List ℚ → ℚ
  | [] => 0
  | [q] => q
  | q :: q' :: qs => if maxQ (q' :: qs) ≤ q then q else maxQ (q' :: qs)

/-- Modelled from the spec: `horizontalExtent` returns the maximum x-coordinate
across all boundary points, i.e. the overall width of the shape. -/
def horizontalExtent (b : BoundaryShape) : ℚ :=
  maxQ (b.points.map (fun p => p.x))

/-- The boundary points lying on the centerline x = 0. -/
def centerlinePoints (b : BoundaryShape) : List Point :=
  b.points.filter (fun p => decide (p.x = 0))

/-- Modelled from the spec: `verticalExtentAtCenterline` returns the maximum
absolute y-value among boundary points whose x-coordinate equals 0, and fails
with `GeometryError` when no boundary point lies at the centerline. -/
def verticalExtentAtCenterline (b : BoundaryShape) : Except GeometryError ℚ :=
  if centerlinePoints b = [] then .error .noCenterlinePoint
  else .ok (maxQ ((centerlinePoints b).map (fun p => absQ p.y)))

/-! ### Label layout engine (modelled from the spec) -/

/-- Modelled from the spec: the fixed category set of the data model. -/
inductive Category where
  | Domain
  | Technical
  | Personal
deriving DecidableEq, Repr

/-- Modelled from the spec: a skill record after the level selector has been
applied upstream; `level` is the y-value to place. -/
structure SkillRecord where
  category : Category
  level : ℚ
deriving DecidableEq, Repr

/-- Modelled from the spec: a skill annotated with its final display position. -/
structure PlacedLabel where
  category : Category
  xPos : ℚ
  yPos : ℚ
deriving DecidableEq, Repr

/-- Fixed category order: first band Domain, second Technical, third Personal. -/
def bandIndex : Category → ℕ
  | .Domain => 0
  | .Technical => 1
  | .Personal => 2

/-- Modelled from the spec: the usable horizontal range for a label at height
`y` is the inset range `[1, W-1]` when `|y| ≥ H` (crossbar region), and the
full range `[0, W]` otherwise (stem region). -/
def usableRange (H W y : ℚ) : ℚ × ℚ :=
  if H ≤ absQ y then (1, W - 1) else (0, W)

/-- Midpoint of the `i`-th of three equal-width bands partitioning `[lo, hi]`. -/
def bandMidpoint (lo hi : ℚ) (i : ℕ) : ℚ :=
  lo + (i : ℚ) * ((hi - lo) / 3) + (hi - lo) / 6

/-- Modelled from the spec: phase 1 initial position assignment, stateless and
independent per skill: `yPos` is the selected level, `xPos` the midpoint of the
band assigned to the skill's category within the usable range for `yPos`. -/
def initialPos (H W : ℚ) (s : SkillRecord) : PlacedLabel :=
  ⟨s.category,
   bandMidpoint (usableRange H W s.level).1 (usableRange H W s.level).2 (bandIndex s.category),
   s.level⟩

/-- The exact-equality duplicate key of a placed label. -/
def key (l : PlacedLabel) : ℚ × ℚ := (l.xPos, l.yPos)

/-- Number of labels strictly before position `i` (original input order) whose
key equals the key of `l`; this is `rank - 1` for the 1-based rank of the label
at position `i` inside its exact-position group. -/
def earlierSameKey (ls : List PlacedLabel) (i : ℕ) (l : PlacedLabel) : ℕ :=
  ((ls.take i).filter (fun m => decide (key m = key l))).length

/-- Helper for one grouping-and-adjustment pass: walks the suffix `rest` that
starts at index `i` of the full current list `ls`. -/
def adjustAux (ls : List PlacedLabel) : ℕ → List PlacedLabel → List PlacedLabel
  | _, [] => []
  | i, l :: rest =>
    { l with yPos := l.yPos + (earlierSameKey ls i l : ℚ) * (1/4) } :: adjustAux ls (i + 1) rest

/-- Modelled from the spec: one full grouping-and-adjustment pass.  Labels are
grouped by exact `(xPos, yPos)` key; within a group, members keep their original
input order and the member of 1-based rank `r` gains `(r - 1) * 0.25` on `yPos`. -/
def adjustOnce (ls : List PlacedLabel) : List PlacedLabel :=
  adjustAux ls 0 ls

/-- Whether the current placement has pairwise distinct duplicate keys. -/
def noDupKeys (ls : List PlacedLabel) : Bool :=
  decide ((ls.map key).Nodup)

/-- The bounded relaxation loop: before each pass the duplicates are detected;
the loop stops as soon as none remain, and performs at most `fuel` passes. -/
def resolveGo : ℕ → List PlacedLabel → List PlacedLabel
  | 0, ls => ls
  | fuel + 1, ls => if noDupKeys ls then ls else resolveGo fuel (adjustOnce ls)

/-- Modelled from the spec: the fixed iteration budget of the reference
configuration. -/
def maxRounds : ℕ := 10

/-- Modelled from the spec: phase 2 duplicate resolution, up to `maxRounds`
full passes, returning the best-effort result when the budget is exhausted. -/
def resolveDuplicates (ls : List PlacedLabel) : List PlacedLabel :=
  resolveGo maxRounds ls

/-- Modelled from the spec: `computePlacement` queries the geometry provider,
assigns each skill its initial band position and then resolves duplicates. -/
def computePlacement (skills : List SkillRecord) (b : BoundaryShape) :
    Except GeometryError (List PlacedLabel) :=
  match verticalExtentAtCenterline b with
  | .error e => .error e
  | .ok H => .ok (resolveDuplicates (skills.map (initialPos H (horizontalExtent b))))

/-! ### Embedding of the plotting loops of `src/visualizations.py` -/

/-- One row of `content_data` as consumed by the plotting loops of
`create_matplotlib_visualization` and `create_plotly_visualization`. -/
structure VisRow where
  category : String
  y : ℚ
deriving DecidableEq, Repr

/-- The literal dictionary `category_x_positions` of
`create_matplotlib_visualization` together with its `.get(category, 2.5)`
default. -/
def category_x_positions (c : String) : ℚ :=
  if c = "Domain" then 1/2
  else if c = "Technical" then 5/2
  else if c = "Personal" then 9/2
  else 5/2

/-- The identical dictionary and default of `create_plotly_visualization`. -/
def plotly_category_x_positions (c : String) : ℚ :=
  if c = "Domain" then 1/2
  else if c = "Technical" then 5/2
  else if c = "Personal" then 9/2
  else 5/2

/-- Helper for `pandas.unique`: first-occurrence order, `seen` accumulating the
values already emitted. -/
def uniqAux : List String → List String → List String
  | _, [] => []
  | seen, c :: cs => if c ∈ seen then uniqAux seen cs else c :: uniqAux (c :: seen) cs

/-- `content_data["category"].unique()`: category values in order of first
appearance. -/
def uniqueCategories (l : List String) : List String :=
  uniqAux [] l

/-- The traversal order of the plotting loops: for each category in
first-appearance order, the rows of that category in input order. -/
def groupedRows (rows : List VisRow) : List VisRow :=
  (uniqueCategories (rows.map (fun r => r.category))).flatMap
    (fun c => rows.filter (fun r => decide (r.category = c)))

/-- The scatter points produced by a plotting loop: the jitter stream models
the successive `np.random.uniform(-0.2, 0.2)` draws, one per plotted point in
traversal order. -/
def currentPoints (xf : String → ℚ) (rows : List VisRow) (jitter : ℕ → ℚ) :
    List (ℚ × ℚ) :=
  (groupedRows rows).enum.map (fun p => (xf p.2.category + jitter p.1, p.2.y))

/-- The current-skills scatter points of `create_matplotlib_visualization`. -/
def currentPointsMatplotlib : List VisRow → (ℕ → ℚ) → List (ℚ × ℚ) :=
  currentPoints category_x_positions

/-- The current-skills scatter points of `create_plotly_visualization`. -/
def currentPointsPlotly : List VisRow → (ℕ → ℚ) → List (ℚ × ℚ) :=
  currentPoints plotly_category_x_positions

/-! ### Embedding of `src/data_loader.py` and `src/app.py` -/

/-- A raw CSV cell before numeric coercion: either a numeric entry or text. -/
inductive Cell where
  | num (q : ℚ)
  | text (s : String)
deriving DecidableEq, Repr

/-- A raw row of `t_shape_content.csv`. -/
structure RawRow where
  category : String
  skill : String
  y : Cell
  y_aim : Cell
deriving DecidableEq, Repr

/-- A content row after `load_data` has coerced the numeric columns; `none`
models a missing value (NaN / null). -/
structure ContentRow where
  category : String
  skill : String
  y : Option ℚ
  y_aim : Option ℚ
deriving DecidableEq, Repr

/-- `pd.to_numeric(-, errors="coerce")` on one cell: non-numeric entries become
missing values. -/
def toNumeric : Cell → Option ℚ
  | .num q => some q
  | .text _ => none

/-- Coercion of the `y` and `y_aim` columns of one row. -/
def coerceRow (r : RawRow) : ContentRow :=
  ⟨r.category, r.skill, toNumeric r.y, toNumeric r.y_aim⟩

/-- Embedding of `load_data`: drop the rows whose category is in `["Text"]`,
then coerce the numeric columns. -/
def load_data (rows : List RawRow) : List ContentRow :=
  (rows.filter (fun r => decide (¬ r.category ∈ ["Text"]))).map coerceRow

/-- The dictionary of `prepare_skills_for_plotting`; `Series.map` yields a
missing value for a category outside the dictionary. -/
def loader_category_x_positions (c : String) : Option ℚ :=
  if c = "Domain" then some 1
  else if c = "Technical" then some 2
  else if c = "Personal" then some 3
  else none

/-- The polars predicate `(pl.col("y_aim").is_not_null()) & (pl.col("y") !=
pl.col("y_aim"))` of `filtered_content_data`; a comparison involving a null
yields null, which the filter drops. -/
def growthFilter (r : ContentRow) : Bool :=
  match r.y_aim, r.y with
  | some t, some v => decide (v ≠ t)
  | _, _ => false

/-- Embedding of `filtered_content_data` from `src/app.py`: in target mode keep
only the rows passing `growthFilter`, otherwise keep all rows. -/
def filtered_content_data (showTarget : Bool) (rows : List ContentRow) : List ContentRow :=
  if showTarget then rows.filter growthFilter else rows

/-! ### Concrete inputs used by the claim theorems -/

/-- The three-skill scenario of the spec: two Domain skills and one Technical
skill, all at level 2. -/
def skills3 : List SkillRecord :=
  [⟨.Domain, 2⟩, ⟨.Domain, 2⟩, ⟨.Technical, 2⟩]

/-- A boundary with centerline height 5 and width 12. -/
def b3 : BoundaryShape := ⟨[⟨0, 5⟩, ⟨12, 0⟩]⟩

/-- Twelve Domain skills: two at level 2 followed by ten at successive quarter
steps, forming a displacement chain. -/
def skills12 : List SkillRecord :=
  [⟨.Domain, 2⟩, ⟨.Domain, 2⟩, ⟨.Domain, 9/4⟩, ⟨.Domain, 5/2⟩, ⟨.Domain, 11/4⟩,
   ⟨.Domain, 3⟩, ⟨.Domain, 13/4⟩, ⟨.Domain, 7/2⟩, ⟨.Domain, 15/4⟩, ⟨.Domain, 4⟩,
   ⟨.Domain, 17/4⟩, ⟨.Domain, 9/2⟩]

instance {ε α : Type} [DecidableEq ε] [DecidableEq α] : DecidableEq (Except ε α)
  | .error e, .error e' =>
    if h : e = e' then isTrue (by rw [h]) else isFalse (fun hc => h (by injection hc))
  | .error _, .ok _ => isFalse (fun h => Except.noConfusion h)
  | .ok _, .error _ => isFalse (fun h => Except.noConfusion h)
  | .ok a, .ok a' =>
    if h : a = a' then isTrue (by rw [h]) else isFalse (fun hc => h (by injection hc))

section DecideSupport

attribute [local semireducible] Rat.add Rat.mul Rat.inv Rat.sub

/-! ### Helper lemmas about `absQ` and `maxQ` -/

theorem absQ_eq_abs (q : ℚ) : absQ q = |q| := by
  rw [absQ]
  by_cases h : q < 0
  · rw [if_pos h, abs_of_neg h]
  · rw [if_neg h, abs_of_nonneg (le_of_not_lt h)]

theorem maxQ_mem : ∀ (l : List ℚ), l ≠ [] → maxQ l ∈ l
  | [], h => absurd rfl h
  | [q], _ => by simp [maxQ]
  | q :: q' :: qs, _ => by
    rw [maxQ]
    by_cases h : maxQ (q' :: qs) ≤ q
    · rw [if_pos h]; exact List.mem_cons_self _ _
    · rw [if_neg h]; exact List.mem_cons_of_mem _ (maxQ_mem (q' :: qs) (by simp))

theorem le_maxQ : ∀ (l : List ℚ) (a : ℚ), a ∈ l → a ≤ maxQ l
  | [], a, h => absurd h (List.not_mem_nil a)
  | [q], a, h => by
    rw [List.mem_singleton] at h
    simp [maxQ, h]
  | q :: q' :: qs, a, h => by
    rw [maxQ]
    by_cases hc : maxQ (q' :: qs) ≤ q
    · rw [if_pos hc]
      rcases List.mem_cons.mp h with rfl | h'
      · exact le_refl a
      · exact le_trans (le_maxQ (q' :: qs) a h') hc
    · rw [if_neg hc]
      rcases List.mem_cons.mp h with rfl | h'
      · exact le_of_lt (lt_of_not_le hc)
      · exact le_maxQ (q' :: qs) a h'

/-- C4: `verticalExtentAtCenterline` returns the maximum absolute y-value among
boundary points whose x-coordinate equals 0 whenever at least one such point
exists, and fails with `GeometryError` if and only if no boundary point lies at
the centerline x; centerline points {(0,5),(0,-5),(0,3)} yield 5, and
`horizontalExtent` over points including (8, 0) yields 8. -/
theorem c4_geometry_queries :
    (∀ b : BoundaryShape, (∃ p ∈ b.points, p.x = 0) →
      ∃ m, verticalExtentAtCenterline b = .ok m
        ∧ (∃ p ∈ b.points, p.x = 0 ∧ absQ p.y = m)
        ∧ (∀ p ∈ b.points, p.x = 0 → absQ p.y ≤ m))
    ∧ (∀ q : ℚ, absQ q = |q|)
    ∧ (∀ b : BoundaryShape,
        verticalExtentAtCenterline b = .error .noCenterlinePoint ↔ ∀ p ∈ b.points, p.x ≠ 0)
    ∧ verticalExtentAtCenterline ⟨[⟨0, 5⟩, ⟨0, -5⟩, ⟨0, 3⟩]⟩ = .ok 5
    ∧ horizontalExtent ⟨[⟨0, 5⟩, ⟨0, -5⟩, ⟨0, 3⟩, ⟨8, 0⟩]⟩ = 8 := by
  refine ⟨?_, absQ_eq_abs, ?_, by decide, by decide⟩
  · rintro b ⟨p, hp, hpx⟩
    have hcp : p ∈ centerlinePoints b := by
      simp [centerlinePoints, List.mem_filter, hp, hpx]
    have hne : centerlinePoints b ≠ [] := by
      intro h; rw [h] at hcp; exact List.not_mem_nil _ hcp
    refine ⟨maxQ ((centerlinePoints b).map (fun p => absQ p.y)), ?_, ?_, ?_⟩
    · rw [verticalExtentAtCenterline, if_neg hne]
    · have hmne : ((centerlinePoints b).map (fun p => absQ p.y)) ≠ [] := by
        simpa using hne
      rcases List.mem_map.mp (maxQ_mem _ hmne) with ⟨q, hq, hqe⟩
      have hq' := List.mem_filter.mp hq
      exact ⟨q, hq'.1, by simpa using hq'.2, hqe⟩
    · intro q hq hqx
      exact le_maxQ _ _ (List.mem_map.mpr
        ⟨q, List.mem_filter.mpr ⟨hq, by simp [hqx]⟩, rfl⟩)
  · intro b
    constructor
    · intro h p hp hpx
      have hcp : p ∈ centerlinePoints b := by
        simp [centerlinePoints, List.mem_filter, hp, hpx]
      have hne : centerlinePoints b ≠ [] := by
        intro hn; rw [hn] at hcp; exact List.not_mem_nil _ hcp
      rw [verticalExtentAtCenterline, if_neg hne] at h
      exact Except.noConfusion h
    · intro h
      have hnil : centerlinePoints b = [] := by
        rw [centerlinePoints, List.filter_eq_nil_iff]
        intro p hp
        simpa using h p hp
      rw [verticalExtentAtCenterline, if_pos hnil]

/-- Witness for C4: a boundary with no centerline point fails with
`GeometryError`. -/
theorem c4_geometry_queries_witness :
    verticalExtentAtCenterline ⟨[⟨1, 2⟩]⟩ = .error .noCenterlinePoint :=
  (c4_geometry_queries.2.2.1 ⟨[⟨1, 2⟩]⟩).mpr (by decide)

/-! ### Helper lemmas about the relaxation loop -/

theorem adjustAux_map_cat_x (ls : List PlacedLabel) :
    ∀ (rest : List PlacedLabel) (i : ℕ),
      (adjustAux ls i rest).map (fun l => (l.category, l.xPos))
        = rest.map (fun l => (l.category, l.xPos))
  | [], _ => rfl
  | l :: rest, i => by
    simp only [adjustAux, List.map_cons, adjustAux_map_cat_x ls rest (i + 1)]

theorem adjustAux_getElem? (ls : List PlacedLabel) :
    ∀ (rest : List PlacedLabel) (i j : ℕ),
      (adjustAux ls i rest)[j]? = (rest[j]?).map
        (fun l => { l with yPos := l.yPos + (earlierSameKey ls (i + j) l : ℚ) * (1/4) })
  | [], i, j => by simp [adjustAux]
  | l :: rest, i, 0 => by simp [adjustAux]
  | l :: rest, i, j + 1 => by
    have hn : i + (j + 1) = (i + 1) + j := by omega
    simp only [adjustAux, List.getElem?_cons_succ, hn]
    exact adjustAux_getElem? ls rest (i + 1) j

theorem resolveGo_stop : ∀ (f : ℕ) (ls : List PlacedLabel),
    noDupKeys ls = true → resolveGo f ls = ls
  | 0, _, _ => rfl
  | f + 1, ls, h => by rw [resolveGo, if_pos h]

theorem resolveGo_eq_iterate : ∀ (f : ℕ) (ls : List PlacedLabel),
    ∃ k, k ≤ f ∧ resolveGo f ls = adjustOnce^[k] ls
  | 0, ls => ⟨0, le_refl 0, rfl⟩
  | f + 1, ls => by
    by_cases h : noDupKeys ls = true
    · exact ⟨0, Nat.zero_le _, by rw [resolveGo, if_pos h]; rfl⟩
    · obtain ⟨k, hk, he⟩ := resolveGo_eq_iterate f (adjustOnce ls)
      refine ⟨k + 1, Nat.succ_le_succ hk, ?_⟩
      rw [resolveGo, if_neg h, he, Function.iterate_succ_apply]

theorem resolveGo_noDup_iff : ∀ (f : ℕ) (ls : List PlacedLabel),
    noDupKeys (resolveGo f ls) = true ↔
      ∃ k, k ≤ f ∧ noDupKeys (adjustOnce^[k] ls) = true
  | 0, ls => by
    constructor
    · intro h; exact ⟨0, le_refl 0, h⟩
    · rintro ⟨k, hk, h⟩
      have hk0 : k = 0 := Nat.le_zero.mp hk
      rw [hk0] at h
      exact h
  | f + 1, ls => by
    by_cases h : noDupKeys ls = true
    · rw [resolveGo, if_pos h]
      exact ⟨fun _ => ⟨0, Nat.zero_le _, h⟩, fun _ => h⟩
    · rw [resolveGo, if_neg h, resolveGo_noDup_iff f (adjustOnce ls)]
      constructor
      · rintro ⟨k, hk, hnd⟩
        exact ⟨k + 1, Nat.succ_le_succ hk, by rwa [Function.iterate_succ_apply]⟩
      · rintro ⟨k, hk, hnd⟩
        cases k with
        | zero => exact absurd hnd h
        | succ k' =>
          rw [Function.iterate_succ_apply] at hnd
          exact ⟨k', Nat.lt_succ_iff.mp hk, hnd⟩

/-- C3: the duplicate-resolution phase groups labels by exact (xPos, yPos) key;
within each group members keep their original input order and the member of
1-based rank r gains (r - 1) * 0.25 on its yPos; the pass repeats at most 10
rounds, stops as soon as a pass finds zero duplicate keys, and an exhausted
budget still returns the best-effort result without an error.  The spec
scenario holds: both Domain skills start at (2, 2) and the second one shifts to
(2, 2.25). -/
theorem c3_duplicate_resolution :
    computePlacement skills3 b3 =
        .ok [⟨.Domain, 2, 2⟩, ⟨.Domain, 2, 9/4⟩, ⟨.Technical, 6, 2⟩]
    ∧ (∀ ls : List PlacedLabel,
        (adjustOnce ls).map (fun l => (l.category, l.xPos))
          = ls.map (fun l => (l.category, l.xPos)))
    ∧ (∀ (ls : List PlacedLabel) (i : ℕ),
        (adjustOnce ls)[i]? = (ls[i]?).map
          (fun l => { l with yPos := l.yPos + (earlierSameKey ls i l : ℚ) * (1/4) }))
    ∧ (∀ ls : List PlacedLabel, ∃ k, k ≤ maxRounds ∧ resolveDuplicates ls = adjustOnce^[k] ls)
    ∧ (∀ ls : List PlacedLabel, noDupKeys ls = true → resolveDuplicates ls = ls)
    ∧ (∀ (skills : List SkillRecord) (b : BoundaryShape) (H : ℚ),
        verticalExtentAtCenterline b = .ok H →
        computePlacement skills b =
          .ok (resolveDuplicates (skills.map (initialPos H (horizontalExtent b))))) := by
  refine ⟨by decide, ?_, ?_, ?_, ?_, ?_⟩
  · intro ls
    exact adjustAux_map_cat_x ls ls 0
  · intro ls i
    have h := adjustAux_getElem? ls ls 0 i
    rwa [Nat.zero_add] at h
  · intro ls
    exact resolveGo_eq_iterate maxRounds ls
  · intro ls h
    exact resolveGo_stop maxRounds ls h
  · intro skills b H h
    rw [computePlacement, h]

/-- Witness for C3: the early-stop and no-error conjuncts applied at concrete
inputs. -/
theorem c3_duplicate_resolution_witness :
    resolveDuplicates ([] : List PlacedLabel) = []
    ∧ computePlacement skills3 b3 =
        .ok (resolveDuplicates (skills3.map (initialPos 5 (horizontalExtent b3)))) :=
  ⟨c3_duplicate_resolution.2.2.2.2.1 [] (by decide),
   c3_duplicate_resolution.2.2.2.2.2 skills3 b3 5 (by decide)⟩

/-- C2 counterexample: twelve Domain skills in which every exact initial
position is shared by at most two labels (well below maxRounds = 10), yet the
returned placement still contains a duplicate (xPos, yPos) key: each round the
displaced label collides with the next label of the chain, and the budget runs
out. -/
theorem c2_no_duplicates_counterexample :
    (skills12.map (initialPos 5 12)).all
        (fun l => decide
          (((skills12.map (initialPos 5 12)).filter
              (fun m => decide (key m = key l))).length ≤ maxRounds)) = true
    ∧ computePlacement skills12 b3 =
        .ok (resolveDuplicates (skills12.map (initialPos 5 12)))
    ∧ noDupKeys (resolveDuplicates (skills12.map (initialPos 5 12))) = false := by
  exact ⟨by decide, by decide, by decide⟩

/-- C2 (amended): the produced placement contains zero pairs of labels with an
identical (xPos, yPos) key exactly when some state within the 10-round
adjustment budget (the initial assignment included) is duplicate-free; a bound
on the size of each exact-initial-position group alone does not guarantee this,
because a displaced label can collide with a label of another group in a chain. -/
theorem c2_no_duplicates_amended (ls : List PlacedLabel) :
    noDupKeys (resolveDuplicates ls) = true ↔
      ∃ k, k ≤ maxRounds ∧ noDupKeys (adjustOnce^[k] ls) = true :=
  resolveGo_noDup_iff maxRounds ls

/-- C5 counterexample: first, duplicate resolution can push a label's yPos
across the shoulder threshold H, after which its xPos (computed from the
pre-resolution yPos) lies outside the inset usable range [1, W-1] for its final
yPos; second, for a degenerate boundary of width W < 2 even the initial xPos
lies outside the (empty) inset range. -/
theorem c5_band_containment_counterexample :
    computePlacement [⟨.Domain, 19/4⟩, ⟨.Domain, 19/4⟩] ⟨[⟨0, 5⟩, ⟨4, 0⟩]⟩ =
        .ok [⟨.Domain, 2/3, 19/4⟩, ⟨.Domain, 2/3, 5⟩]
    ∧ ¬ ((usableRange 5 4 (5 : ℚ)).1 ≤ (2/3 : ℚ))
    ∧ (initialPos 5 1 ⟨.Domain, 5⟩).xPos
        < (usableRange 5 1 ((initialPos 5 1 ⟨.Domain, 5⟩).yPos)).1 := by
  exact ⟨by decide, by decide, by decide⟩

/-- C5 (amended): for boundaries of width W ≥ 2, every label's initial xPos
lies within the usable horizontal range computed from its initial yPos — the
inset range [1, W-1] when abs(yPos) ≥ H, the full range [0, W] otherwise — and
equals the midpoint of the equal-width band assigned to the label's category;
containment is guaranteed relative to the pre-resolution yPos only. -/
theorem c5_band_containment_amended (H W : ℚ) (s : SkillRecord) (hW : 2 ≤ W) :
    (usableRange H W s.level).1 ≤ (initialPos H W s).xPos
    ∧ (initialPos H W s).xPos ≤ (usableRange H W s.level).2
    ∧ (initialPos H W s).xPos =
        bandMidpoint (usableRange H W s.level).1 (usableRange H W s.level).2
          (bandIndex s.category)
    ∧ (initialPos H W s).yPos = s.level := by
  refine ⟨?_, ?_, rfl, rfl⟩ <;>
  · simp only [initialPos, usableRange, bandMidpoint]
    by_cases h : H ≤ absQ s.level <;>
      simp only [h, ite_true, ite_false, if_true, if_false] <;>
      rcases s.category with _ | _ | _ <;>
      simp only [bandIndex, Nat.cast_ofNat, Nat.cast_one, Nat.cast_zero] <;>
      linarith

/-- Witness for C5 (amended): the Domain skill of the spec scenario at H = 5,
W = 12. -/
theorem c5_band_containment_amended_witness :
    (usableRange 5 12 (2 : ℚ)).1 ≤ (initialPos 5 12 ⟨.Domain, 2⟩).xPos
    ∧ (initialPos 5 12 ⟨.Domain, 2⟩).xPos ≤ (usableRange 5 12 (2 : ℚ)).2
    ∧ (initialPos 5 12 ⟨.Domain, 2⟩).xPos =
        bandMidpoint (usableRange 5 12 (2 : ℚ)).1 (usableRange 5 12 (2 : ℚ)).2
          (bandIndex Category.Domain)
    ∧ (initialPos 5 12 ⟨.Domain, 2⟩).yPos = 2 :=
  c5_band_containment_amended 5 12 ⟨.Domain, 2⟩ (by norm_num)

/-- C7: the empty skill list yields an empty placement with no error (given a
boundary the geometry provider accepts), and the plotting loops of both
visualization functions produce no points on the empty row set. -/
theorem c7_empty_skill_list :
    (∀ (b : BoundaryShape) (H : ℚ), verticalExtentAtCenterline b = .ok H →
      computePlacement ([] : List SkillRecord) b = .ok [])
    ∧ (∀ j : ℕ → ℚ, currentPointsMatplotlib [] j = [] ∧ currentPointsPlotly [] j = []) := by
  constructor
  · intro b H h
    rw [computePlacement, h]
    show Except.ok (resolveDuplicates (List.map (initialPos H (horizontalExtent b)) [])) =
      Except.ok []
    rw [List.map_nil, resolveDuplicates, resolveGo_stop maxRounds [] (by decide)]
  · intro j
    exact ⟨rfl, rfl⟩

/-- Witness for C7: the empty skill list on the concrete boundary `b3`. -/
theorem c7_empty_skill_list_witness :
    computePlacement ([] : List SkillRecord) b3 = .ok []
    ∧ currentPointsMatplotlib [] (Function.const ℕ 0) = [] :=
  ⟨c7_empty_skill_list.1 b3 5 (by decide),
   (c7_empty_skill_list.2 (Function.const ℕ 0)).1⟩

/-! ### Helper lemmas about the plotting loops -/

theorem mem_uniqAux : ∀ (l seen : List String) (c : String),
    c ∈ uniqAux seen l ↔ c ∈ l ∧ c ∉ seen
  | [], seen, c => by simp [uniqAux]
  | d :: cs, seen, c => by
    by_cases hd : d ∈ seen
    · rw [uniqAux, if_pos hd, mem_uniqAux cs seen c]
      constructor
      · rintro ⟨h1, h2⟩
        exact ⟨List.mem_cons_of_mem _ h1, h2⟩
      · rintro ⟨h1, h2⟩
        rcases List.mem_cons.mp h1 with rfl | h1
        · exact absurd hd h2
        · exact ⟨h1, h2⟩
    · rw [uniqAux, if_neg hd]
      constructor
      · intro h
        rcases List.mem_cons.mp h with rfl | h
        · exact ⟨List.mem_cons_self _ _, hd⟩
        · have h' := (mem_uniqAux cs (d :: seen) c).mp h
          exact ⟨List.mem_cons_of_mem _ h'.1,
            fun hc => h'.2 (List.mem_cons_of_mem _ hc)⟩
      · rintro ⟨h1, h2⟩
        rcases List.mem_cons.mp h1 with rfl | h1
        · exact List.mem_cons_self _ _
        · by_cases hcd : c = d
          · rw [hcd]; exact List.mem_cons_self _ _
          · refine List.mem_cons_of_mem _ ((mem_uniqAux cs (d :: seen) c).mpr ⟨h1, ?_⟩)
            intro hc
            rcases List.mem_cons.mp hc with h | h
            · exact hcd h
            · exact h2 h

theorem uniqAux_nodup : ∀ (l seen : List String), (uniqAux seen l).Nodup
  | [], seen => by simp [uniqAux]
  | d :: cs, seen => by
    by_cases hd : d ∈ seen
    · rw [uniqAux, if_pos hd]
      exact uniqAux_nodup cs seen
    · rw [uniqAux, if_neg hd]
      refine List.nodup_cons.mpr ⟨?_, uniqAux_nodup cs (d :: seen)⟩
      intro hmem
      exact ((mem_uniqAux cs (d :: seen) d).mp hmem).2 (List.mem_cons_self _ _)

theorem flatMap_congr_mem {α β : Type} (l : List α) (f g : α → List β)
    (h : ∀ a ∈ l, f a = g a) : l.flatMap f = l.flatMap g := by
  induction l with
  | nil => rfl
  | cons a t ih =>
    rw [List.flatMap_cons, List.flatMap_cons, h a (List.mem_cons_self _ _),
      ih (fun b hb => h b (List.mem_cons_of_mem _ hb))]

theorem flatMap_filter_perm :
    ∀ (cs : List String) (rows : List VisRow), cs.Nodup →
      (∀ r ∈ rows, r.category ∈ cs) →
      List.Perm (cs.flatMap (fun c => rows.filter (fun r => decide (r.category = c)))) rows
  | [], rows, _, hcov => by
    cases rows with
    | nil => simp
    | cons r t => exact absurd (hcov r (List.mem_cons_self _ _)) (List.not_mem_nil _)
  | c :: cs, rows, hnd, hcov => by
    rw [List.flatMap_cons]
    have hnd' := List.nodup_cons.mp hnd
    have hcongr : ∀ c' ∈ cs,
        rows.filter (fun r => decide (r.category = c')) =
          (rows.filter (fun r => !decide (r.category = c))).filter
            (fun r => decide (r.category = c')) := by
      intro c' hc'
      rw [List.filter_filter]
      refine (List.filter_congr ?_).symm
      intro r _
      by_cases h : r.category = c'
      · have hcc : ¬ c' = c := fun hh => hnd'.1 (hh ▸ hc')
        simp [h, hcc]
      · simp [h]
    rw [flatMap_congr_mem cs _ _ hcongr]
    have hperm := flatMap_filter_perm cs
      (rows.filter (fun r => !decide (r.category = c))) hnd'.2 ?_
    · exact (hperm.append_left (rows.filter (fun r => decide (r.category = c)))).trans
        (List.filter_append_perm _ rows)
    · intro r hr
      have hr' := List.mem_filter.mp hr
      rcases List.mem_cons.mp (hcov r hr'.1) with h | h
      · rw [h] at hr'
        simp at hr'
      · exact h

theorem groupedRows_perm (rows : List VisRow) : List.Perm (groupedRows rows) rows := by
  refine flatMap_filter_perm _ rows (uniqAux_nodup _ []) ?_
  intro r hr
  exact (mem_uniqAux _ [] r.category).mpr
    ⟨List.mem_map.mpr ⟨r, hr, rfl⟩, List.not_mem_nil _⟩

theorem enumFrom_points_map_snd (xf : String → ℚ) (j : ℕ → ℚ) :
    ∀ (g : List VisRow) (n : ℕ),
      ((List.enumFrom n g).map (fun p => (xf p.2.category + j p.1, p.2.y))).map Prod.snd
        = g.map (fun r => r.y)
  | [], _ => rfl
  | r :: g, n => by
    simp only [List.enumFrom, List.map_cons]
    rw [enumFrom_points_map_snd xf j g (n + 1)]

theorem currentPoints_map_snd (xf : String → ℚ) (rows : List VisRow) (j : ℕ → ℚ) :
    (currentPoints xf rows j).map Prod.snd = (groupedRows rows).map (fun r => r.y) :=
  enumFrom_points_map_snd xf j (groupedRows rows) 0

theorem enumFrom_points_forall2 (xf : String → ℚ) (j1 j2 : ℕ → ℚ)
    (h1 : ∀ i, -(1/5) ≤ j1 i ∧ j1 i ≤ 1/5) (h2 : ∀ i, -(1/5) ≤ j2 i ∧ j2 i ≤ 1/5) :
    ∀ (g : List VisRow) (n : ℕ),
      List.Forall₂ (fun p q => p.2 = q.2 ∧ |p.1 - q.1| ≤ 2/5)
        ((List.enumFrom n g).map (fun p => (xf p.2.category + j1 p.1, p.2.y)))
        ((List.enumFrom n g).map (fun p => (xf p.2.category + j2 p.1, p.2.y)))
  | [], n => by simp [List.enumFrom]
  | r :: g, n => by
    simp only [List.enumFrom, List.map_cons]
    refine List.Forall₂.cons ⟨rfl, ?_⟩ (enumFrom_points_forall2 xf j1 j2 h1 h2 g (n + 1))
    have ha := h1 n
    have hb := h2 n
    have he : xf r.category + j1 n - (xf r.category + j2 n) = j1 n - j2 n := by ring
    rw [he, abs_le]
    constructor <;> linarith [ha.1, ha.2, hb.1, hb.2]

/-- C1 counterexample: the plotting loops of both visualization functions add a
fresh uniform random jitter in (-0.2, 0.2) to every x position, so two runs on
the same single-skill input with different (equally possible) draws produce
different (xPos, yPos) sequences, and the same (yPos, category) pair does not
always yield the same position. -/
theorem c1_determinism_counterexample :
    currentPointsMatplotlib [⟨"Domain", 2⟩] (Function.const ℕ (1/10)) ≠
        currentPointsMatplotlib [⟨"Domain", 2⟩] (Function.const ℕ (-(1/10)))
    ∧ currentPointsPlotly [⟨"Domain", 2⟩] (Function.const ℕ (1/10)) ≠
        currentPointsPlotly [⟨"Domain", 2⟩] (Function.const ℕ (-(1/10)))
    ∧ -(1/5) ≤ (1/10 : ℚ) ∧ (1/10 : ℚ) ≤ 1/5
    ∧ -(1/5) ≤ (-(1/10) : ℚ) ∧ (-(1/10) : ℚ) ≤ 1/5 := by
  exact ⟨by decide, by decide, by norm_num, by norm_num, by norm_num, by norm_num⟩

/-- C1 (amended): for a fixed input sequence of skills and fixed jitter draws
the placement is identical; the yPos sequence is deterministic (independent of
the draws), while the xPos of a point may differ between two runs by up to the
combined jitter bound 0.4, so the full (xPos, yPos) sequence is deterministic
only up to the random jitter. -/
theorem c1_determinism_amended (rows : List VisRow) (j1 j2 : ℕ → ℚ)
    (h1 : ∀ i, -(1/5) ≤ j1 i ∧ j1 i ≤ 1/5) (h2 : ∀ i, -(1/5) ≤ j2 i ∧ j2 i ≤ 1/5) :
    (currentPointsMatplotlib rows j1).map Prod.snd
        = (currentPointsMatplotlib rows j2).map Prod.snd
    ∧ List.Forall₂ (fun p q => p.2 = q.2 ∧ |p.1 - q.1| ≤ 2/5)
        (currentPointsMatplotlib rows j1) (currentPointsMatplotlib rows j2)
    ∧ (currentPointsPlotly rows j1).map Prod.snd
        = (currentPointsPlotly rows j2).map Prod.snd := by
  refine ⟨?_, ?_, ?_⟩
  · rw [currentPointsMatplotlib, currentPoints_map_snd, currentPoints_map_snd]
  · exact enumFrom_points_forall2 category_x_positions j1 j2 h1 h2 (groupedRows rows) 0
  · rw [currentPointsPlotly, currentPoints_map_snd, currentPoints_map_snd]

/-- Witness for C1 (amended): two all-zero jitter streams on a one-row input. -/
theorem c1_determinism_amended_witness :
    (currentPointsMatplotlib [⟨"Domain", 2⟩] (Function.const ℕ 0)).map Prod.snd
        = (currentPointsMatplotlib [⟨"Domain", 2⟩] (Function.const ℕ 0)).map Prod.snd
    ∧ List.Forall₂ (fun p q => p.2 = q.2 ∧ |p.1 - q.1| ≤ 2/5)
        (currentPointsMatplotlib [⟨"Domain", 2⟩] (Function.const ℕ 0))
        (currentPointsMatplotlib [⟨"Domain", 2⟩] (Function.const ℕ 0))
    ∧ (currentPointsPlotly [⟨"Domain", 2⟩] (Function.const ℕ 0)).map Prod.snd
        = (currentPointsPlotly [⟨"Domain", 2⟩] (Function.const ℕ 0)).map Prod.snd :=
  c1_determinism_amended [⟨"Domain", 2⟩] (Function.const ℕ 0) (Function.const ℕ 0)
    (fun _ => ⟨by norm_num, by norm_num⟩) (fun _ => ⟨by norm_num, by norm_num⟩)

/-- C6: for skills in the same yPos magnitude region, a Domain skill's
horizontal band (its fixed x position plus any jitter within the (-0.2, 0.2)
draw range) lies strictly left of a Technical skill's band, which lies strictly
left of a Personal skill's band, in both visualization functions and in the
`prepare_skills_for_plotting` mapping of the loader. -/
theorem c6_category_band_ordering (j1 j2 j3 : ℚ)
    (h1a : -(1/5) ≤ j1) (h1b : j1 ≤ 1/5) (h2a : -(1/5) ≤ j2) (h2b : j2 ≤ 1/5)
    (h3a : -(1/5) ≤ j3) (h3b : j3 ≤ 1/5) :
    (category_x_positions "Domain" + j1 < category_x_positions "Technical" + j2
      ∧ category_x_positions "Technical" + j2 < category_x_positions "Personal" + j3)
    ∧ (plotly_category_x_positions "Domain" + j1 < plotly_category_x_positions "Technical" + j2
      ∧ plotly_category_x_positions "Technical" + j2 < plotly_category_x_positions "Personal" + j3)
    ∧ (loader_category_x_positions "Domain" = some 1
      ∧ loader_category_x_positions "Technical" = some 2
      ∧ loader_category_x_positions "Personal" = some 3
      ∧ (1 : ℚ) < 2 ∧ (2 : ℚ) < 3) := by
  have hd : category_x_positions "Domain" = 1/2 := by decide
  have ht : category_x_positions "Technical" = 5/2 := by decide
  have hp : category_x_positions "Personal" = 9/2 := by decide
  have hd' : plotly_category_x_positions "Domain" = 1/2 := by decide
  have ht' : plotly_category_x_positions "Technical" = 5/2 := by decide
  have hp' : plotly_category_x_positions "Personal" = 9/2 := by decide
  refine ⟨⟨?_, ?_⟩, ⟨?_, ?_⟩, by decide, by decide, by decide, by norm_num, by norm_num⟩
  · rw [hd, ht]; linarith
  · rw [ht, hp]; linarith
  · rw [hd', ht']; linarith
  · rw [ht', hp']; linarith

/-- Witness for C6: zero jitter on all three draws. -/
theorem c6_category_band_ordering_witness :
    (category_x_positions "Domain" + 0 < category_x_positions "Technical" + 0
      ∧ category_x_positions "Technical" + 0 < category_x_positions "Personal" + 0)
    ∧ (plotly_category_x_positions "Domain" + 0 < plotly_category_x_positions "Technical" + 0
      ∧ plotly_category_x_positions "Technical" + 0 < plotly_category_x_positions "Personal" + 0)
    ∧ (loader_category_x_positions "Domain" = some 1
      ∧ loader_category_x_positions "Technical" = some 2
      ∧ loader_category_x_positions "Personal" = some 3
      ∧ (1 : ℚ) < 2 ∧ (2 : ℚ) < 3) :=
  c6_category_band_ordering 0 0 0 (by norm_num) (by norm_num) (by norm_num)
    (by norm_num) (by norm_num) (by norm_num)

/-- C8: in target mode every skill whose y_aim value is absent is excluded from
the input set before layout runs (the polars filter keeps only rows with a
present y_aim differing from y), and the layout engine handles any resulting
smaller or empty set without error whenever the geometry is accepted. -/
theorem c8_target_mode_exclusion :
    (∀ (rows : List ContentRow) (r : ContentRow),
        r ∈ filtered_content_data true rows → r.y_aim ≠ none ∧ r ∈ rows)
    ∧ (∀ (rows : List ContentRow) (r : ContentRow),
        r ∈ rows → r.y_aim = none → r ∉ filtered_content_data true rows)
    ∧ (∀ (skills : List SkillRecord) (b : BoundaryShape) (H : ℚ),
        verticalExtentAtCenterline b = .ok H →
        ∃ out, computePlacement skills b = .ok out) := by
  refine ⟨?_, ?_, ?_⟩
  · intro rows r hr
    rw [filtered_content_data, if_pos rfl] at hr
    have h := List.mem_filter.mp hr
    refine ⟨?_, h.1⟩
    intro hnone
    have hg := h.2
    rw [growthFilter, hnone] at hg
    cases hy : r.y <;> rw [hy] at hg <;> exact Bool.noConfusion hg
  · intro rows r _ hnone hr
    rw [filtered_content_data, if_pos rfl] at hr
    have hg := (List.mem_filter.mp hr).2
    rw [growthFilter, hnone] at hg
    cases hy : r.y <;> rw [hy] at hg <;> exact Bool.noConfusion hg
  · intro skills b H h
    exact ⟨_, by rw [computePlacement, h]⟩

/-- Witness for C8: a concrete one-row table in target mode. -/
theorem c8_target_mode_exclusion_witness :
    (⟨"Domain", "s", some 1, some 2⟩ : ContentRow).y_aim ≠ none
    ∧ (⟨"Domain", "s", some 1, some 2⟩ : ContentRow) ∈
        [(⟨"Domain", "s", some 1, some 2⟩ : ContentRow)] :=
  c8_target_mode_exclusion.1 [⟨"Domain", "s", some 1, some 2⟩]
    ⟨"Domain", "s", some 1, some 2⟩ (by decide)

/-- C9: a skill whose category is not Domain, Technical or Personal receives
the default x position 2.5 (the Technical column's center) in both
visualization functions, and no skill is omitted: the multiset of plotted y
values equals the multiset of input y values. -/
theorem c9_unknown_category_default (c : String)
    (hd : c ≠ "Domain") (ht : c ≠ "Technical") (hp : c ≠ "Personal") :
    category_x_positions c = 5/2
    ∧ plotly_category_x_positions c = 5/2
    ∧ category_x_positions "Technical" = 5/2
    ∧ (∀ (rows : List VisRow) (j : ℕ → ℚ),
        List.Perm ((currentPointsMatplotlib rows j).map Prod.snd) (rows.map (fun r => r.y))
        ∧ List.Perm ((currentPointsPlotly rows j).map Prod.snd) (rows.map (fun r => r.y))) := by
  refine ⟨?_, ?_, by decide, ?_⟩
  · rw [category_x_positions, if_neg hd, if_neg ht, if_neg hp]
  · rw [plotly_category_x_positions, if_neg hd, if_neg ht, if_neg hp]
  · intro rows j
    constructor
    · rw [currentPointsMatplotlib, currentPoints_map_snd]
      exact (groupedRows_perm rows).map (fun r => r.y)
    · rw [currentPointsPlotly, currentPoints_map_snd]
      exact (groupedRows_perm rows).map (fun r => r.y)

/-- Witness for C9: the unknown category "Misc". -/
theorem c9_unknown_category_default_witness :
    category_x_positions "Misc" = 5/2 ∧ plotly_category_x_positions "Misc" = 5/2 :=
  ⟨(c9_unknown_category_default "Misc" (by decide) (by decide) (by decide)).1,
   (c9_unknown_category_default "Misc" (by decide) (by decide) (by decide)).2.1⟩

/-- C10: `load_data` removes every row whose category equals "Text" and coerces
the y and y_aim columns so that every non-numeric entry becomes a missing
value, while all other rows are kept (in order, with category and skill
unchanged). -/
theorem c10_load_data_filter_coerce :
    (∀ (rows : List RawRow) (r' : ContentRow), r' ∈ load_data rows → r'.category ≠ "Text")
    ∧ (∀ (rows : List RawRow) (r : RawRow),
        r ∈ rows → r.category ≠ "Text" → coerceRow r ∈ load_data rows)
    ∧ (∀ r : RawRow, (coerceRow r).category = r.category ∧ (coerceRow r).skill = r.skill)
    ∧ (∀ q : ℚ, toNumeric (.num q) = some q)
    ∧ (∀ s : String, toNumeric (.text s) = none)
    ∧ (∀ (rows : List RawRow) (r : RawRow),
        r.category = "Text" → load_data (r :: rows) = load_data rows)
    ∧ (∀ (rows : List RawRow) (r : RawRow),
        r.category ≠ "Text" → load_data (r :: rows) = coerceRow r :: load_data rows) := by
  refine ⟨?_, ?_, fun r => ⟨rfl, rfl⟩, fun q => rfl, fun s => rfl, ?_, ?_⟩
  · intro rows r' hr'
    rcases List.mem_map.mp hr' with ⟨r, hr, rfl⟩
    have h := List.mem_filter.mp hr
    have h2 := h.2
    simp only [decide_eq_true_eq, List.mem_singleton] at h2
    exact h2
  · intro rows r hr hne
    refine List.mem_map.mpr ⟨r, List.mem_filter.mpr ⟨hr, ?_⟩, rfl⟩
    simp only [decide_eq_true_eq, List.mem_singleton]
    exact hne
  · intro rows r h
    rw [load_data, load_data, List.filter_cons_of_neg]
    simp [h]
  · intro rows r h
    rw [load_data, load_data, List.filter_cons_of_pos, List.map_cons]
    simp [h]

/-- Witness for C10: a "Text" row is dropped and a numeric row is kept with its
text y_aim coerced to a missing value. -/
theorem c10_load_data_filter_coerce_witness :
    load_data [⟨"Text", "header", .text "a", .text "b"⟩] = load_data []
    ∧ load_data [⟨"Domain", "s", .num 2, .text "x"⟩] =
        coerceRow ⟨"Domain", "s", .num 2, .text "x"⟩ :: load_data [] :=
  ⟨c10_load_data_filter_coerce.2.2.2.2.2.1 [] ⟨"Text", "header", .text "a", .text "b"⟩ rfl,
   c10_load_data_filter_coerce.2.2.2.2.2.2 [] ⟨"Domain", "s", .num 2, .text "x"⟩ (by decide)⟩

end DecideSupport

end TShapeViz
